/-
  Verification of the waf-rule-stresser traffic-generation and
  streaming-measurement engine.

  The Go sources under backend/ (models.go, tester section, percentile
  section, attacks.go, export.go) are embedded shallowly:

  * Go `int` is modelled as ℤ.  All quantities the program actually
    produces (request counts ≤ 10000, latencies bounded by the 30 second
    client timeout) are far below 2^63, so 64-bit wraparound never
    occurs on reachable values and is not modelled.
  * Go integer division (`/` on int, truncation toward zero) is
    modelled as Int.tdiv.
  * float64 arithmetic inside calculatePercentile is modelled as exact
    rational arithmetic: the percentile argument is a rational p, and
    the expression int((p/100)*(n-1) + 0.5) is computed exactly over ℚ
    through the numerator/denominator form, with the float-to-int
    conversion int(..) modelled as truncation toward zero.
  * Go strings are Lean Strings; the few string operations used
    (strings.Contains with a one-character needle, TrimSuffix,
    concatenation) are modelled on the underlying character lists.
  * Go maps of headers are association lists with set-or-replace update;
    the claims never depend on map iteration order.
  * Randomness (math/rand) and the transport (net/http) are external
    collaborators: every call to rand.Intn(n) is modelled as idx % n for
    an oracle-supplied idx, and every HTTP exchange is an
    oracle-supplied TransportResult.
  * Wall-clock sleeping and timestamps are oracle-supplied integers;
    pacing delays do not affect the data-flow results modelled here.
-/
import Mathlib

/-! # Go-level helpers -/

/-- Go map[string]string modelled as an association list. -/
abbrev StringMap := List (String × String)

/-- Go map assignment m[k] = v: replace the binding if the key is
    present, otherwise append it. -/
def mapSet (m : StringMap) (k v : String) : StringMap :=
  if m.any (fun kv => kv.fst = k) then
    m.map (fun kv => if kv.fst = k then (k, v) else kv)
  else
    m ++ [(k, v)]

/-- Go strings.TrimSuffix: drop one trailing occurrence of tail when
    present. -/
def goTrimSuffix (s tail : String) : String :=
  if tail.data.isSuffixOf s.data then
    ⟨s.data.take (s.data.length - tail.data.length)⟩
  else s

/-- Go float64-to-int conversion int(x) applied to the exact rational
    a / b with b > 0: truncation toward zero. -/
def intOfRat (a b : ℤ) : ℤ := a.tdiv b

/-! # Data model (models.go) -/

/-- TestConfig from models.go.  Field names follow the Go struct. -/
structure TestConfig where
  TargetURL : String := ""
  TotalRequests : ℤ := 0
  Duration : ℤ := 0
  TrafficType : String := ""
  ErrorMode : Bool := false
  UserAgentType : String := ""
  CustomUserAgent : String := ""
  TestMode : String := ""
  HTTPMethod : String := ""
  CustomHeaders : StringMap := []
  RequestBody : String := ""
deriving DecidableEq

/-- RequestResult from models.go.  Defaults are the Go zero values. -/
structure RequestResult where
  ID : ℤ := 0
  Status : ℤ := 0
  StatusText : String := ""
  URL : String := ""
  Method : String := ""
  RequestHeaders : StringMap := []
  ResponseHeaders : StringMap := []
  RequestBody : String := ""
  ResponseBody : String := ""
  ResponseTime : ℤ := 0
  Timestamp : ℤ := 0
  Error : String := ""
  WasBlocked : Bool := false
  AttackInfo : String := ""
deriving DecidableEq

/-- TestResult from models.go.  StartTime and EndTime are unix
    milliseconds; Duration (seconds) and RequestsPerSec are the two
    float64 fields, modelled as exact rationals. -/
structure TestResult where
  TestID : String := ""
  TotalRequests : ℤ := 0
  SuccessCount : ℤ := 0
  ErrorCount : ℤ := 0
  BlockedCount : ℤ := 0
  AvgResponse : ℤ := 0
  MinResponse : ℤ := 0
  MaxResponse : ℤ := 0
  P50Response : ℤ := 0
  P95Response : ℤ := 0
  P99Response : ℤ := 0
  Requests : List RequestResult := []
  RateLimitHit : Bool := false
  RateLimitAt : ℤ := 0
  StartTime : ℤ := 0
  EndTime : ℤ := 0
  Duration : ℚ := 0
  RequestsPerSec : ℚ := 0

/-! # Percentile calculator (percentile section of models.go) -/

/-- The index computed inside calculatePercentile for a slice of length
    n: roundedIndex = int((percentile/100)*(n-1) + 0.5), then clamped
    from above (only) to n-1.  The float expression is evaluated exactly
    over ℚ: (p/100)*(n-1) + 1/2 = (2*p.num*(n-1) + 100*p.den) / (200*p.den). -/
def percentileIndex (n : ℤ) (percentile : ℚ) : ℤ :=
  let roundedIndex : ℤ :=
    intOfRat (2 * percentile.num * (n - 1) + 100 * (percentile.den : ℤ))
             (200 * (percentile.den : ℤ))
  if n ≤ roundedIndex then n - 1 else roundedIndex

/-- calculatePercentile from models.go: 0 on an empty slice, otherwise
    the element at percentileIndex.  The Go slice access (which would
    panic out of bounds) is totalised with getD; the bounds theorem for
    the index is proved separately. -/
def calculatePercentile (sortedValues : List ℤ) (percentile : ℚ) : ℤ :=
  if sortedValues.length = 0 then 0
  else sortedValues.getD (percentileIndex (sortedValues.length : ℤ) percentile).toNat 0

/-- sortInts from models.go: Go sort.Ints sorts ascending on a copy;
    insertion sort produces the same (unique) ascending reordering. -/
def sortInts (values : List ℤ) : List ℤ :=
  List.insertionSort (· ≤ ·) values

/-- calculateResponseTimePercentiles from models.go. -/
def calculateResponseTimePercentiles (responseTimes : List ℤ) : ℤ × ℤ × ℤ :=
  if responseTimes.length = 0 then (0, 0, 0)
  else
    let sorted := sortInts responseTimes
    (calculatePercentile sorted 50, calculatePercentile sorted 95, calculatePercentile sorted 99)

/-! ## Percentile index arithmetic -/

theorem percentileIndex_rounded_eq (p : ℚ) (hp : 0 ≤ p) (n : ℤ) (hn : 1 ≤ n) :
    intOfRat (2 * p.num * (n - 1) + 100 * (p.den : ℤ)) (200 * (p.den : ℤ))
      = round (p / 100 * ((n : ℚ) - 1)) := by
  have hden : (0 : ℤ) < (p.den : ℤ) := by exact_mod_cast p.pos
  have hnum : (0 : ℤ) ≤ 2 * p.num * (n - 1) + 100 * (p.den : ℤ) := by
    have h1 : (0 : ℤ) ≤ p.num := Rat.num_nonneg.mpr hp
    have h2 : (0 : ℤ) ≤ n - 1 := by omega
    nlinarith
  have hb : (0 : ℤ) ≤ 200 * (p.den : ℤ) := by positivity
  rw [intOfRat, Int.tdiv_eq_ediv hnum hb]
  have hcast : ((200 * p.den : ℕ) : ℤ) = 200 * (p.den : ℤ) := by push_cast; ring
  have hfl := Rat.floor_intCast_div_natCast (2 * p.num * (n - 1) + 100 * (p.den : ℤ)) (200 * p.den)
  rw [hcast] at hfl
  rw [← hfl, round_eq]
  congr 1
  have hdq : ((p.den : ℚ)) ≠ 0 := by
    exact_mod_cast p.den_ne_zero
  have hpq : (p.num : ℚ) = p * (p.den : ℚ) := by
    have hmul : (p.num : ℚ) / (p.den : ℚ) * (p.den : ℚ) = p * (p.den : ℚ) := by
      rw [Rat.num_div_den p]
    rwa [div_mul_cancel₀ _ hdq] at hmul
  push_cast
  field_simp
  rw [hpq]
  ring

theorem percentileIndex_eq_min (p : ℚ) (hp : 0 ≤ p) (n : ℤ) (hn : 1 ≤ n) :
    percentileIndex n p = min (round (p / 100 * ((n : ℚ) - 1))) (n - 1) := by
  rw [percentileIndex]
  simp only [percentileIndex_rounded_eq p hp n hn]
  rcases le_or_lt n (round (p / 100 * ((n : ℚ) - 1))) with h | h
  · simp only [if_pos h]
    omega
  · simp only [if_neg (not_le.mpr h)]
    omega

theorem round_nonneg_of_nonneg (x : ℚ) (hx : 0 ≤ x) : 0 ≤ round x := by
  rw [round_eq]
  have : (0 : ℤ) ≤ ⌊x + 1 / 2⌋ := by
    apply Int.floor_nonneg.mpr
    linarith
  omega

/-- The spec-side nearest-rank index: round(p/100 * (n-1)) clamped into
    [0, n-1].  Stated from the spec text, for comparison with the code. -/
def specPercentileIndex (n : ℤ) (p : ℚ) : ℤ :=
  max 0 (min (round (p / 100 * ((n : ℚ) - 1))) (n - 1))

theorem percentileIndex_bounds (n : ℤ) (p : ℚ) (hn : 1 ≤ n) (hp : 0 ≤ p) :
    0 ≤ percentileIndex n p ∧ percentileIndex n p < n := by
  rw [percentileIndex_eq_min p hp n hn]
  have hx : (0 : ℚ) ≤ p / 100 * ((n : ℚ) - 1) := by
    have h1 : (1 : ℚ) ≤ (n : ℚ) := by exact_mod_cast hn
    have h2 : (0 : ℚ) ≤ p / 100 := by positivity
    nlinarith
  refine ⟨le_min (round_nonneg_of_nonneg _ hx) (by omega), ?_⟩
  have := min_le_right (round (p / 100 * ((n : ℚ) - 1))) (n - 1)
  omega

theorem getD_eq_get (l : List ℤ) (i : ℕ) (h : i < l.length) :
    l.getD i 0 = l.get ⟨i, h⟩ := by
  simp [List.getD_eq_getElem?_getD, List.getElem?_eq_getElem h]

theorem sorted_getD_mono (l : List ℤ) (h : l.Sorted (· ≤ ·)) (i j : ℕ)
    (hij : i ≤ j) (hj : j < l.length) : l.getD i 0 ≤ l.getD j 0 := by
  have hi : i < l.length := lt_of_le_of_lt hij hj
  rw [getD_eq_get l i hi, getD_eq_get l j hj]
  exact h.rel_get_of_le (by exact hij)

theorem length_pos_int (l : List ℤ) (hne : l ≠ []) : 1 ≤ (l.length : ℤ) := by
  have := List.length_pos.mpr hne
  omega

theorem percentileIndex_mono (n : ℤ) (hn : 1 ≤ n) (p q : ℚ) (hp : 0 ≤ p) (hpq : p ≤ q) :
    percentileIndex n p ≤ percentileIndex n q := by
  rw [percentileIndex_eq_min p hp n hn, percentileIndex_eq_min q (le_trans hp hpq) n hn]
  have h1 : (1 : ℚ) ≤ (n : ℚ) := by exact_mod_cast hn
  have hr : round (p / 100 * ((n : ℚ) - 1)) ≤ round (q / 100 * ((n : ℚ) - 1)) := by
    rw [round_eq, round_eq]
    apply Int.floor_le_floor
    have hmul : p / 100 * ((n : ℚ) - 1) ≤ q / 100 * ((n : ℚ) - 1) := by
      apply mul_le_mul_of_nonneg_right _ (by linarith)
      linarith
    linarith
  exact min_le_min hr le_rfl

theorem calculatePercentile_mono (l : List ℤ) (hs : l.Sorted (· ≤ ·)) (hne : l ≠ [])
    (p q : ℚ) (hp : 0 ≤ p) (hpq : p ≤ q) :
    calculatePercentile l p ≤ calculatePercentile l q := by
  have hq : 0 ≤ q := le_trans hp hpq
  have hn : 1 ≤ (l.length : ℤ) := length_pos_int l hne
  have hlen : l.length ≠ 0 := fun h => hne (List.length_eq_zero.mp h)
  have hbp := percentileIndex_bounds (l.length : ℤ) p hn hp
  have hbq := percentileIndex_bounds (l.length : ℤ) q hn hq
  have hidx := percentileIndex_mono (l.length : ℤ) hn p q hp hpq
  rw [calculatePercentile, calculatePercentile, if_neg hlen, if_neg hlen]
  apply sorted_getD_mono l hs _ _ (by omega) (by omega)

theorem calculatePercentile_100_max (l : List ℤ) (hs : l.Sorted (· ≤ ·)) (hne : l ≠ []) :
    calculatePercentile l 100 ∈ l ∧ ∀ x ∈ l, x ≤ calculatePercentile l 100 := by
  have hn : 1 ≤ (l.length : ℤ) := length_pos_int l hne
  have hlen : l.length ≠ 0 := fun h => hne (List.length_eq_zero.mp h)
  have hidx : percentileIndex (l.length : ℤ) 100 = (l.length : ℤ) - 1 := by
    rw [percentileIndex_eq_min 100 (by norm_num) _ hn]
    have h1 : (100 : ℚ) / 100 * (((l.length : ℤ) : ℚ) - 1) = (((l.length : ℤ) - 1 : ℤ) : ℚ) := by
      push_cast
      ring
    rw [h1, round_intCast, min_self]
  have hlast : (percentileIndex (l.length : ℤ) 100).toNat < l.length := by
    rw [hidx]; omega
  rw [calculatePercentile, if_neg hlen]
  constructor
  · rw [getD_eq_get l _ hlast]
    exact List.get_mem l _ _
  · intro x hx
    obtain ⟨i, hi⟩ := List.mem_iff_get.mp hx
    rw [← hi]
    have hmono : l.getD i 0 ≤ l.getD (percentileIndex (l.length : ℤ) 100).toNat 0 := by
      apply sorted_getD_mono l hs _ _ _ hlast
      rw [hidx]; omega
    rw [getD_eq_get l i i.isLt] at hmono
    simpa using hmono

/-- C2: calculatePercentile returns 0 on the empty slice; on a non-empty
    slice (and a nonnegative percentile) it returns the element at index
    round(p/100 * (n-1)) clamped into [0, n-1]; in particular for the
    100 values 1..100 sorted ascending the 95th percentile is the value
    at index 94, namely 95. -/
theorem calculatePercentile_nearest_rank (l : List ℤ) (p : ℚ) (hp : 0 ≤ p) :
    calculatePercentile [] p = 0 ∧
    (l ≠ [] →
      (specPercentileIndex (l.length : ℤ) p).toNat < l.length ∧
      calculatePercentile l p = l.getD (specPercentileIndex (l.length : ℤ) p).toNat 0) ∧
    calculatePercentile ((List.range 100).map (fun k => (k : ℤ) + 1)) 95 = 95 := by
  refine ⟨rfl, ?_, by decide⟩
  intro hne
  have hn : 1 ≤ (l.length : ℤ) := length_pos_int l hne
  have hlen : l.length ≠ 0 := fun h => hne (List.length_eq_zero.mp h)
  have hspec : specPercentileIndex (l.length : ℤ) p = percentileIndex (l.length : ℤ) p := by
    rw [specPercentileIndex, percentileIndex_eq_min p hp _ hn]
    have hx : (0 : ℚ) ≤ p / 100 * (((l.length : ℤ) : ℚ) - 1) := by
      have h1 : (1 : ℚ) ≤ ((l.length : ℤ) : ℚ) := by exact_mod_cast hn
      have h2 : (0 : ℚ) ≤ p / 100 := by positivity
      nlinarith
    have hr := round_nonneg_of_nonneg _ hx
    omega
  have hb := percentileIndex_bounds (l.length : ℤ) p hn hp
  rw [hspec]
  exact ⟨by omega, by rw [calculatePercentile, if_neg hlen]⟩

theorem calculatePercentile_nearest_rank_witness :
    calculatePercentile ([10, 20, 30] : List ℤ) 50
      = ([10, 20, 30] : List ℤ).getD
          (specPercentileIndex (([10, 20, 30] : List ℤ).length : ℤ) 50).toNat 0 :=
  ((calculatePercentile_nearest_rank [10, 20, 30] 50 (by norm_num)).2.1 (by decide)).2

/-- C10: for a non-empty slice and 0 ≤ p ≤ 100, the index actually
    computed by calculatePercentile lies in [0, n-1], so the slice
    access cannot go out of bounds; the code clamps only from above, and
    the lower bound indeed comes from the hypothesis 0 ≤ p alone. -/
theorem percentileIndex_safe (n : ℤ) (p : ℚ) (hn : 1 ≤ n) (hp : 0 ≤ p) :
    0 ≤ percentileIndex n p ∧ percentileIndex n p < n :=
  percentileIndex_bounds n p hn hp

theorem percentileIndex_safe_witness :
    0 ≤ percentileIndex 5 95 ∧ percentileIndex 5 95 < 5 :=
  percentileIndex_safe 5 95 (by norm_num) (by norm_num)

/-- C8: for every response-time list the three computed percentiles are
    monotone (p50 ≤ p95 ≤ p99), and on every non-empty sorted slice the
    100th percentile is the maximum element. -/
theorem percentiles_monotone_and_p100 :
    (∀ responseTimes : List ℤ,
      (calculateResponseTimePercentiles responseTimes).1
          ≤ (calculateResponseTimePercentiles responseTimes).2.1 ∧
      (calculateResponseTimePercentiles responseTimes).2.1
          ≤ (calculateResponseTimePercentiles responseTimes).2.2) ∧
    (∀ l : List ℤ, l.Sorted (· ≤ ·) → l ≠ [] →
      calculatePercentile l 100 ∈ l ∧ ∀ x ∈ l, x ≤ calculatePercentile l 100) := by
  constructor
  · intro responseTimes
    by_cases hlen : responseTimes.length = 0
    · rw [calculateResponseTimePercentiles, if_pos hlen]
      exact ⟨le_rfl, le_rfl⟩
    · rw [calculateResponseTimePercentiles, if_neg hlen]
      have hs : (sortInts responseTimes).Sorted (· ≤ ·) :=
        List.sorted_insertionSort _ responseTimes
      have hne : sortInts responseTimes ≠ [] := by
        intro h
        apply hlen
        have hperm := List.perm_insertionSort (· ≤ ·) responseTimes
        rw [sortInts] at h
        rw [h] at hperm
        simpa using hperm.length_eq.symm
      exact ⟨calculatePercentile_mono _ hs hne 50 95 (by norm_num) (by norm_num),
             calculatePercentile_mono _ hs hne 95 99 (by norm_num) (by norm_num)⟩
  · intro l hs hne
    exact calculatePercentile_100_max l hs hne

theorem percentiles_monotone_and_p100_witness :
    ((calculateResponseTimePercentiles [7, 3, 9]).1
        ≤ (calculateResponseTimePercentiles [7, 3, 9]).2.1 ∧
      (calculateResponseTimePercentiles [7, 3, 9]).2.1
        ≤ (calculateResponseTimePercentiles [7, 3, 9]).2.2) ∧
    (calculatePercentile [3, 7] 100 ∈ ([3, 7] : List ℤ) ∧
      ∀ x ∈ ([3, 7] : List ℤ), x ≤ calculatePercentile [3, 7] 100) :=
  ⟨percentiles_monotone_and_p100.1 [7, 3, 9],
   percentiles_monotone_and_p100.2 [3, 7] (by decide) (by decide)⟩

/-! # Payload and attack selection (attacks.go)

The global payload pools (loaded once at startup from embedded files)
are modelled as an explicit AttackPools value, and every rand.Intn(n)
call is an oracle-supplied index taken modulo n. -/

/-- The AttackPayloads global from attacks.go. -/
structure AttackPools where
  SQLInjection : List String := []
  XSS : List String := []
  PathTraversal : List String := []
  CommandInjection : List String := []
  ScannerUserAgents : List String := []
  LegitimateUserAgents : List String := []

/-- Oracle for the math/rand draws one request makes. -/
structure Rng where
  attackTypeIdx : ℕ := 0
  payloadIdx : ℕ := 0
  attackUAIdx : ℕ := 0
  selectUAIdx : ℕ := 0
  notFoundTime : ℤ := 0
  notFoundRand : ℕ := 0

/-- GetRandomAttackType from attacks.go: a uniform pick from the four
    attack categories, with rand.Intn 4 modelled as idx % 4. -/
def GetRandomAttackType (rng : Rng) : String :=
  (["sql", "xss", "traversal", "command"] : List String).getD (rng.attackTypeIdx % 4) ""

/-- GetRandomPayload from attacks.go.  The default switch branch returns
    the empty string immediately; a selected empty pool also yields the
    empty string. -/
def GetRandomPayload (pools : AttackPools) (attackType : String) (rng : Rng) : String :=
  let payloads : Option (List String) :=
    match attackType with
    | "sql" => some pools.SQLInjection
    | "xss" => some pools.XSS
    | "traversal" => some pools.PathTraversal
    | "command" => some pools.CommandInjection
    | _ => none
  match payloads with
  | none => ""
  | some payloads =>
    if payloads.length = 0 then ""
    else payloads.getD (rng.payloadIdx % payloads.length) ""

/-- GetRandomUserAgent from attacks.go, with the single rand.Intn call
    it makes supplied as idx. -/
def GetRandomUserAgent (pools : AttackPools) (idx : ℕ) : String :=
  if pools.ScannerUserAgents.length = 0 then
    let fallbackAgents : List String := ["sqlmap/1.0", "Nikto/2.1.6", "nmap-scripting-engine"]
    fallbackAgents.getD (idx % fallbackAgents.length) ""
  else
    pools.ScannerUserAgents.getD (idx % pools.ScannerUserAgents.length) ""

/-- GetLegitimateUserAgent from attacks.go. -/
def GetLegitimateUserAgent (pools : AttackPools) (idx : ℕ) : String :=
  if pools.LegitimateUserAgents.length = 0 then
    "Mozilla/5.0 (Windows NT 10.0; Win64; x64) AppleWebKit/537.36 (KHTML, like Gecko) Chrome/131.0.0.0 Safari/537.36"
  else
    pools.LegitimateUserAgents.getD (idx % pools.LegitimateUserAgents.length) ""

/-- SelectUserAgent from attacks.go: custom UA, then explicit type, then
    a traffic-type based default. -/
def SelectUserAgent (pools : AttackPools) (config : TestConfig) (idx : ℕ) : String :=
  if config.CustomUserAgent ≠ "" then config.CustomUserAgent
  else if config.UserAgentType = "scanner" then GetRandomUserAgent pools idx
  else if config.UserAgentType = "legitimate" then GetLegitimateUserAgent pools idx
  else if config.TrafficType = "attack" then GetRandomUserAgent pools idx
  else GetLegitimateUserAgent pools idx

/-- BuildAttackRequest from attacks.go.  Go strings.Contains(url, "?")
    with a one-character needle is membership of that character.  The
    braces of the synthesized JSON bodies are written with character
    escapes. -/
def BuildAttackRequest (pools : AttackPools) (config : TestConfig) (rng : Rng) :
    String × String × StringMap × String :=
  let url := config.TargetURL
  let body := config.RequestBody
  let headers := config.CustomHeaders
  let attackType := GetRandomAttackType rng
  let payload := GetRandomPayload pools attackType rng
  if payload = "" then
    (url, body, headers, "No payloads available")
  else
    let (url, body, attackInfo) :=
      if config.HTTPMethod = "GET" ∨ config.HTTPMethod = "" then
        let separator := if url.data.contains '?' then "&" else "?"
        (url ++ separator ++ "id=" ++ payload ++ "&search=" ++ payload, body,
          attackType ++ " (query parameter)")
      else
        let body :=
          if body = "" then
            "\x7b\"id\": \"" ++ payload ++ "\", \"search\": \"" ++ payload ++ "\"\x7d"
          else
            goTrimSuffix body "\x7d" ++ ", \"attack\": \"" ++ payload ++ "\"\x7d"
        (url, body, attackType ++ " (request body)")
    (url, body, mapSet headers "User-Agent" (GetRandomUserAgent pools rng.attackUAIdx), attackInfo)

/-- Generate404URL from attacks.go: the current unix time and the random
    draw are oracle-supplied. -/
def Generate404URL (baseURL : String) (timeUnix : ℤ) (randDraw : ℕ) : String :=
  let randomPath := "/nonexistent-path-" ++ toString timeUnix ++ "-" ++ toString (randDraw % 999999)
  goTrimSuffix baseURL "/" ++ randomPath

/-- C7: for a GET (or empty-method) attack request with a non-empty
    selected payload P, the attack URL is the configured URL with
    id=P&search=P appended behind a fresh question mark when none is
    present, and behind an ampersand otherwise. -/
theorem buildAttackRequest_get_url (pools : AttackPools) (config : TestConfig) (rng : Rng)
    (P : String)
    (hm : config.HTTPMethod = "GET" ∨ config.HTTPMethod = "")
    (hP : GetRandomPayload pools (GetRandomAttackType rng) rng = P)
    (hne : P ≠ "") :
    (config.TargetURL.data.contains '?' = false →
      (BuildAttackRequest pools config rng).1
        = config.TargetURL ++ "?" ++ "id=" ++ P ++ "&search=" ++ P) ∧
    (config.TargetURL.data.contains '?' = true →
      (BuildAttackRequest pools config rng).1
        = config.TargetURL ++ "&" ++ "id=" ++ P ++ "&search=" ++ P) := by
  rw [BuildAttackRequest]
  simp only [hP, if_neg hne, if_pos hm]
  constructor
  · intro hq
    have hq2 : ¬ ('?' ∈ config.TargetURL.data) := by simpa using hq
    simp [hq2]
  · intro hq
    have hq2 : '?' ∈ config.TargetURL.data := by simpa using hq
    simp [hq2]

theorem buildAttackRequest_get_url_witness :
    (BuildAttackRequest { SQLInjection := ["P"] }
        { TargetURL := "http://x/y", HTTPMethod := "GET" } {}).1
      = "http://x/y?id=P&search=P" ∧
    (BuildAttackRequest { SQLInjection := ["P"] }
        { TargetURL := "http://x/y?a=1", HTTPMethod := "GET" } {}).1
      = "http://x/y?a=1&id=P&search=P" := by
  constructor
  · have h := buildAttackRequest_get_url { SQLInjection := ["P"] }
      { TargetURL := "http://x/y", HTTPMethod := "GET" } {} "P"
      (Or.inl rfl) (by decide) (by decide)
    have h2 := h.1 (by decide)
    simpa using h2
  · have h := buildAttackRequest_get_url { SQLInjection := ["P"] }
      { TargetURL := "http://x/y?a=1", HTTPMethod := "GET" } {} "P"
      (Or.inl rfl) (by decide) (by decide)
    have h2 := h.2 (by decide)
    simpa using h2

/-! # Pacing interval (calculateInterval in the tester section) -/

/-- calculateInterval from the tester section of models.go: burst mode
    spaces the requests over the first half of the duration, every other
    mode over the whole duration; Go integer division throughout. -/
def calculateInterval (config : TestConfig) : ℤ :=
  if config.TestMode = "burst" then
    let burstDuration := config.Duration.tdiv 2
    (burstDuration * 1000).tdiv config.TotalRequests
  else
    (config.Duration * 1000).tdiv config.TotalRequests

/-- C5: for totalRequests N ≥ 1 and duration D ≥ 1, the interval is
    D*1000/N (integer division) in every non-burst mode and
    (D/2)*1000/N in burst mode; when the division collapses to 0 the
    function returns 0 as an ordinary value. -/
theorem calculateInterval_division (config : TestConfig)
    (hN : 1 ≤ config.TotalRequests) (hD : 1 ≤ config.Duration) :
    (config.TestMode ≠ "burst" →
      calculateInterval config = config.Duration * 1000 / config.TotalRequests) ∧
    (config.TestMode = "burst" →
      calculateInterval config = config.Duration / 2 * 1000 / config.TotalRequests) ∧
    (config.TestMode ≠ "burst" → config.Duration * 1000 < config.TotalRequests →
      calculateInterval config = 0) := by
  have hN0 : (0 : ℤ) ≤ config.TotalRequests := by omega
  have hD0 : (0 : ℤ) ≤ config.Duration := by omega
  refine ⟨?_, ?_, ?_⟩
  · intro hmode
    rw [calculateInterval, if_neg hmode]
    exact Int.tdiv_eq_ediv (by positivity) hN0
  · intro hmode
    rw [calculateInterval, if_pos hmode]
    have h2 : config.Duration.tdiv 2 = config.Duration / 2 := Int.tdiv_eq_ediv hD0 (by norm_num)
    rw [h2]
    exact Int.tdiv_eq_ediv (by positivity) hN0
  · intro hmode hlt
    rw [calculateInterval, if_neg hmode]
    rw [Int.tdiv_eq_ediv (by positivity) hN0]
    exact Int.ediv_eq_zero_of_lt (by positivity) hlt

theorem calculateInterval_division_witness :
    calculateInterval { Duration := 10, TotalRequests := 100, TestMode := "baseline" }
        = (10 : ℤ) * 1000 / 100 ∧
    calculateInterval { Duration := 10, TotalRequests := 100, TestMode := "burst" }
        = (10 : ℤ) / 2 * 1000 / 100 ∧
    calculateInterval { Duration := 1, TotalRequests := 2000, TestMode := "baseline" } = 0 := by
  refine ⟨?_, ?_, ?_⟩
  · exact (calculateInterval_division _ (by norm_num) (by norm_num)).1 (by decide)
  · exact (calculateInterval_division _ (by norm_num) (by norm_num)).2.1 (by decide)
  · exact (calculateInterval_division _ (by norm_num) (by norm_num)).2.2 (by decide) (by norm_num)

/-! # Streaming start validation (handleStartTestStream in export.go) -/

/-- The validation and defaulting sequence handleStartTestStream runs on
    a decoded TestConfig before any session is created: each failed
    check sends an HTTP 400 and stops; otherwise the defaulted
    configuration proceeds to RunTestStreaming. -/
def validateConfig (config : TestConfig) : Except String TestConfig :=
  if config.TargetURL = "" then
    .error "target_url is required"
  else if config.TotalRequests ≤ 0 then
    .error "total_requests must be greater than 0"
  else if 10000 < config.TotalRequests then
    .error "total_requests cannot exceed 10000 (safety limit)"
  else if config.Duration ≤ 0 then
    .error "duration must be greater than 0"
  else if 3600 < config.Duration then
    .error "duration cannot exceed 3600 seconds (1 hour)"
  else if config.TrafficType ≠ "" ∧ config.TrafficType ≠ "normal" ∧ config.TrafficType ≠ "attack" then
    .error "traffic_type must be normal or attack"
  else if config.TestMode ≠ "" ∧ config.TestMode ≠ "baseline" ∧ config.TestMode ≠ "burst" then
    .error "test_mode must be baseline or burst"
  else if config.UserAgentType ≠ "" ∧ config.UserAgentType ≠ "legitimate" ∧ config.UserAgentType ≠ "scanner" then
    .error "user_agent_type must be legitimate or scanner"
  else
    .ok { config with
      TrafficType := if config.TrafficType = "" then "normal" else config.TrafficType,
      TestMode := if config.TestMode = "" then "baseline" else config.TestMode,
      HTTPMethod := if config.HTTPMethod = "" then "GET" else config.HTTPMethod }

/-- C9: starting a streaming test is rejected before any session exists
    exactly when the URL is empty, a numeric field is out of range, or
    an enumeration string is non-empty and unknown; accepted
    configurations get the defaults normal / baseline / GET for empty
    trafficType, testMode and HTTPMethod. -/
theorem validateConfig_iff_and_defaults (config : TestConfig) :
    ((validateConfig config).isOk = false ↔
      (config.TargetURL = "" ∨
       config.TotalRequests < 1 ∨ 10000 < config.TotalRequests ∨
       config.Duration < 1 ∨ 3600 < config.Duration ∨
       (config.TrafficType ≠ "" ∧ config.TrafficType ≠ "normal" ∧ config.TrafficType ≠ "attack") ∨
       (config.TestMode ≠ "" ∧ config.TestMode ≠ "baseline" ∧ config.TestMode ≠ "burst") ∨
       (config.UserAgentType ≠ "" ∧ config.UserAgentType ≠ "legitimate" ∧ config.UserAgentType ≠ "scanner"))) ∧
    (∀ c2 : TestConfig, validateConfig config = .ok c2 →
      c2.TrafficType = (if config.TrafficType = "" then "normal" else config.TrafficType) ∧
      c2.TestMode = (if config.TestMode = "" then "baseline" else config.TestMode) ∧
      c2.HTTPMethod = (if config.HTTPMethod = "" then "GET" else config.HTTPMethod) ∧
      c2.TargetURL = config.TargetURL ∧
      c2.TotalRequests = config.TotalRequests ∧
      c2.Duration = config.Duration) := by
  constructor
  · rw [validateConfig]
    set t1 := (if config.TrafficType = "" then "normal" else config.TrafficType) with ht1
    set t2 := (if config.TestMode = "" then "baseline" else config.TestMode) with ht2
    set t3 := (if config.HTTPMethod = "" then "GET" else config.HTTPMethod) with ht3
    split_ifs with h1 h2 h3 h4 h5 h6 h7 h8
    · exact iff_of_true rfl (Or.inl h1)
    · exact iff_of_true rfl (Or.inr (Or.inl (by omega)))
    · exact iff_of_true rfl (Or.inr (Or.inr (Or.inl h3)))
    · exact iff_of_true rfl (Or.inr (Or.inr (Or.inr (Or.inl (by omega)))))
    · exact iff_of_true rfl (Or.inr (Or.inr (Or.inr (Or.inr (Or.inl h5)))))
    · exact iff_of_true rfl (Or.inr (Or.inr (Or.inr (Or.inr (Or.inr (Or.inl h6))))))
    · exact iff_of_true rfl
        (Or.inr (Or.inr (Or.inr (Or.inr (Or.inr (Or.inr (Or.inl h7)))))))
    · exact iff_of_true rfl
        (Or.inr (Or.inr (Or.inr (Or.inr (Or.inr (Or.inr (Or.inr h8)))))))
    · refine iff_of_false (fun hcontra => Bool.noConfusion hcontra) ?_
      intro hbad
      rcases hbad with h | h | h | h | h | h | h | h
      · exact h1 h
      · omega
      · exact h3 h
      · omega
      · exact h5 h
      · exact h6 h
      · exact h7 h
      · exact h8 h
  · intro c2 hok
    rw [validateConfig] at hok
    set t1 := (if config.TrafficType = "" then "normal" else config.TrafficType) with ht1
    set t2 := (if config.TestMode = "" then "baseline" else config.TestMode) with ht2
    set t3 := (if config.HTTPMethod = "" then "GET" else config.HTTPMethod) with ht3
    split_ifs at hok
    injection hok with h
    subst h
    exact ⟨rfl, rfl, rfl, rfl, rfl, rfl⟩

theorem validateConfig_iff_and_defaults_witness :
    ((validateConfig { TargetURL := "http://x", TotalRequests := 20000, Duration := 10 }).isOk = false) ∧
    ((validateConfig { TargetURL := "http://x", TotalRequests := 10, Duration := 10 }).isOk ≠ false) ∧
    (∀ c2, validateConfig { TargetURL := "http://x", TotalRequests := 10, Duration := 10 } = .ok c2 →
      c2.TrafficType = "normal" ∧ c2.TestMode = "baseline" ∧ c2.HTTPMethod = "GET") := by
  refine ⟨?_, ?_, ?_⟩
  · exact (validateConfig_iff_and_defaults _).1.mpr (by right; right; left; norm_num)
  · intro h
    have hbad := (validateConfig_iff_and_defaults
      { TargetURL := "http://x", TotalRequests := 10, Duration := 10 }).1.mp h
    revert hbad
    decide
  · intro c2 hok
    have h := (validateConfig_iff_and_defaults _).2 c2 hok
    exact ⟨h.1, h.2.1, h.2.2.1⟩

/-! # Request executor (sendRequest in the tester section) -/

/-- Collaborator model of Go http.StatusText for the status codes this
    development evaluates; like Go, unknown codes map to the empty
    string. -/
def statusText (code : ℤ) : String :=
  if code = 200 then "OK"
  else if code = 403 then "Forbidden"
  else if code = 404 then "Not Found"
  else if code = 406 then "Not Acceptable"
  else if code = 429 then "Too Many Requests"
  else if code = 500 then "Internal Server Error"
  else ""

/-- Oracle for one HTTP exchange: request construction may fail, the
    send may fail after elapsedMs, or a response arrives (whose body
    read may itself fail). -/
inductive TransportResult where
  | createError (msg : String)
  | netError (msg : String) (elapsedMs : ℤ)
  | response (status : ℤ) (respHeaders : StringMap) (respBody : String)
      (readErr : Option String) (elapsedMs : ℤ)

/-- Everything nondeterministic one sendRequest call consumes. -/
structure RequestEnv where
  rng : Rng := {}
  transport : TransportResult := .netError "" 0
  timestamp : ℤ := 0

/-- The header block of sendRequest once the request object exists:
    custom (or attack) headers, Content-Type when a body is present,
    then the selected User-Agent. -/
def attachHeaders (pools : AttackPools) (config : TestConfig) (idx : ℕ)
    (body : String) (headers : StringMap) : StringMap :=
  let requestHeaders := headers
  let requestHeaders :=
    if body ≠ "" then mapSet requestHeaders "Content-Type" "application/json"
    else requestHeaders
  mapSet requestHeaders "User-Agent" (SelectUserAgent pools config idx)

/-- The request-preparation phase of sendRequest: the initial result
    record, the effective URL, body and headers after 404-forcing or
    attack injection, and the recorded request body. -/
def prepareRequest (pools : AttackPools) (id : ℤ) (config : TestConfig) (env : RequestEnv) :
    String × String × StringMap × RequestResult :=
  let result : RequestResult :=
    { ID := id, Timestamp := env.timestamp, URL := config.TargetURL, Method := config.HTTPMethod }
  let result := if result.Method = "" then { result with Method := "GET" } else result
  let url := config.TargetURL
  let body := config.RequestBody
  let headers := config.CustomHeaders
  let (url, result) :=
    if config.TrafficType = "normal" ∧ config.ErrorMode then
      let u := Generate404URL url env.rng.notFoundTime env.rng.notFoundRand
      (u, { result with URL := u })
    else (url, result)
  let (url, body, headers, result) :=
    if config.TrafficType = "attack" then
      let built := BuildAttackRequest pools config env.rng
      (built.1, built.2.1, built.2.2.1,
        { result with URL := built.1, RequestBody := built.2.1, AttackInfo := built.2.2.2 })
    else (url, body, headers, result)
  let result :=
    if body ≠ "" ∧ result.RequestBody = "" then { result with RequestBody := body } else result
  (url, body, headers, result)

/-- sendRequest from the tester section of models.go: builds the
    effective URL/body/headers (404-forcing or attack injection), sends
    through the transport oracle, and classifies the outcome.  All
    failures land in the Error field with status 0. -/
def sendRequest (pools : AttackPools) (id : ℤ) (config : TestConfig) (env : RequestEnv) :
    RequestResult :=
  let prep := prepareRequest pools id config env
  let body := prep.2.1
  let headers := prep.2.2.1
  let result := prep.2.2.2
  match env.transport with
  | .createError msg =>
      { result with Error := "Failed to create request: " ++ msg, Status := 0 }
  | .netError msg elapsed =>
      let result := { result with
        RequestHeaders := attachHeaders pools config env.rng.selectUAIdx body headers }
      { result with
          ResponseTime := elapsed,
          Error := "Request failed: " ++ msg,
          Status := 0 }
  | .response status respHeaders respBody readErr elapsed =>
      let result := { result with
        RequestHeaders := attachHeaders pools config env.rng.selectUAIdx body headers }
      let result := { result with
          ResponseTime := elapsed,
          Status := status,
          StatusText := statusText status }
      let result :=
        if status = 429 ∨ status = 406 ∨ status = 403 then { result with WasBlocked := true }
        else result
      let result := { result with ResponseHeaders := respHeaders }
      match readErr with
      | some msg => { result with Error := "Failed to read response body: " ++ msg }
      | none =>
          if 500 < respBody.data.length then
            { result with ResponseBody := (⟨respBody.data.take 500⟩ : String) ++ "... (truncated)" }
          else
            { result with ResponseBody := respBody }

/-! # Synchronous test run (RunTest and calculateStatistics) -/

/-- The accumulator of the statistics loop in calculateStatistics,
    including the Go sentinel 999999 for the minimum. -/
structure StatsAcc where
  successCount : ℤ := 0
  errorCount : ℤ := 0
  blockedCount : ℤ := 0
  totalResponseTime : ℤ := 0
  minResponse : ℤ := 999999
  maxResponse : ℤ := 0
  responseTimes : List ℤ := []

/-- One iteration of the statistics loop over a request. -/
def statsStep (acc : StatsAcc) (req : RequestResult) : StatsAcc :=
  let acc := if 200 ≤ req.Status ∧ req.Status < 300 then
    { acc with successCount := acc.successCount + 1 } else acc
  let acc := if 400 ≤ req.Status ∨ req.Error ≠ "" then
    { acc with errorCount := acc.errorCount + 1 } else acc
  let acc := if req.WasBlocked then { acc with blockedCount := acc.blockedCount + 1 } else acc
  let acc := { acc with
      totalResponseTime := acc.totalResponseTime + req.ResponseTime,
      responseTimes := acc.responseTimes ++ [req.ResponseTime] }
  let acc := if req.ResponseTime < acc.minResponse ∧ 0 < req.ResponseTime then
    { acc with minResponse := req.ResponseTime } else acc
  if acc.maxResponse < req.ResponseTime then { acc with maxResponse := req.ResponseTime } else acc

/-- calculateStatistics from the tester section of models.go, modifying
    the result in place. -/
def calculateStatistics (result : TestResult) : TestResult :=
  let acc := result.Requests.foldl statsStep {}
  let result :=
    if 0 < result.TotalRequests then
      { result with AvgResponse := acc.totalResponseTime.tdiv result.TotalRequests }
    else result
  let minResponse := if acc.minResponse = 999999 then 0 else acc.minResponse
  let result := { result with
      SuccessCount := acc.successCount,
      ErrorCount := acc.errorCount,
      BlockedCount := acc.blockedCount,
      MinResponse := minResponse,
      MaxResponse := acc.maxResponse }
  let p := calculateResponseTimePercentiles acc.responseTimes
  let result := { result with P50Response := p.1, P95Response := p.2.1, P99Response := p.2.2 }
  let duration : ℚ := ((result.EndTime - result.StartTime : ℤ) : ℚ) / 1000
  { result with
      Duration := duration,
      RequestsPerSec := if 0 < duration then (result.TotalRequests : ℚ) / duration
                        else result.RequestsPerSec }

/-- The body of the request loop in RunTest: iteration k sends request
    number i = k+1, appends the outcome, and latches the first blocked
    request into RateLimitHit / RateLimitAt. -/
def runTestStep (pools : AttackPools) (config : TestConfig) (envs : ℕ → RequestEnv)
    (result : TestResult) (k : ℕ) : TestResult :=
  let i : ℤ := (k : ℤ) + 1
  let requestResult := sendRequest pools i config (envs (k + 1))
  let result := { result with Requests := result.Requests ++ [requestResult] }
  if requestResult.WasBlocked = true ∧ result.RateLimitHit = false then
    { result with RateLimitHit := true, RateLimitAt := i }
  else result

/-- RunTest from the tester section of models.go.  The generated test id
    and the wall-clock readings are oracle-supplied; the inter-request
    sleeps do not influence any recorded data. -/
def RunTest (pools : AttackPools) (config : TestConfig) (envs : ℕ → RequestEnv)
    (testID : String) (startTime endTime : ℤ) : TestResult :=
  let init : TestResult := { TestID := testID, StartTime := startTime, Requests := [] }
  let afterLoop := (List.range config.TotalRequests.toNat).foldl
    (runTestStep pools config envs) init
  let result := { afterLoop with
      EndTime := endTime,
      TotalRequests := (afterLoop.Requests.length : ℤ) }
  calculateStatistics result

/-- buildFinalResult from the tester section of models.go, used by the
    streaming path. -/
def buildFinalResult (testID : String) (requests : List RequestResult)
    (startTime endTime : ℤ) : TestResult :=
  let result : TestResult :=
    { TestID := testID, StartTime := startTime, EndTime := endTime, Requests := requests }
  let result := { result with TotalRequests := (requests.length : ℤ) }
  calculateStatistics result

/-! ## sendRequest projections -/

theorem prepareRequest_ID (pools : AttackPools) (id : ℤ) (config : TestConfig)
    (env : RequestEnv) :
    (prepareRequest pools id config env).2.2.2.ID = id := by
  rw [prepareRequest]
  dsimp only
  split_ifs <;> rfl

theorem prepareRequest_WasBlocked (pools : AttackPools) (id : ℤ) (config : TestConfig)
    (env : RequestEnv) :
    (prepareRequest pools id config env).2.2.2.WasBlocked = false := by
  rw [prepareRequest]
  dsimp only
  split_ifs <;> rfl

theorem sendRequest_ID (pools : AttackPools) (id : ℤ) (config : TestConfig) (env : RequestEnv) :
    (sendRequest pools id config env).ID = id := by
  have hprep := prepareRequest_ID pools id config env
  rw [sendRequest]
  cases env.transport with
  | createError msg => exact hprep
  | netError msg elapsed => exact hprep
  | response status respHeaders respBody readErr elapsed =>
      dsimp only
      split_ifs <;> cases readErr <;> exact hprep

theorem sendRequest_blocked_iff (pools : AttackPools) (id : ℤ) (config : TestConfig)
    (env : RequestEnv) :
    (sendRequest pools id config env).WasBlocked = true ↔
      ((sendRequest pools id config env).Status = 403 ∨
       (sendRequest pools id config env).Status = 406 ∨
       (sendRequest pools id config env).Status = 429) := by
  have hprep := prepareRequest_WasBlocked pools id config env
  rw [sendRequest]
  cases env.transport with
  | createError msg =>
      dsimp only
      rw [hprep]
      simp
  | netError msg elapsed =>
      dsimp only
      rw [hprep]
      simp
  | response status respHeaders respBody readErr elapsed =>
      dsimp only
      split_ifs with hb <;> cases readErr <;>
        first
          | exact iff_of_true rfl (by tauto)
          | exact iff_of_false (by simp [hprep]) (fun hcon => hb (by tauto))

/-! ## RunTest loop structure -/

/-- The ordered outcome list a full pass of the request loop produces:
    request i gets outcome sendRequest(i) for i = 1..N.  This is also
    what the streaming sender goroutine delivers, in order, over the
    results channel when it is never cancelled. -/
def sentResults (pools : AttackPools) (config : TestConfig) (envs : ℕ → RequestEnv) :
    List RequestResult :=
  (List.range config.TotalRequests.toNat).map
    (fun (k : ℕ) => sendRequest pools ((k : ℤ) + 1) config (envs (k + 1)))

theorem runTestStep_Requests (pools : AttackPools) (config : TestConfig)
    (envs : ℕ → RequestEnv) (init : TestResult) (k : ℕ) :
    (runTestStep pools config envs init k).Requests
      = init.Requests ++ [sendRequest pools ((k : ℤ) + 1) config (envs (k + 1))] := by
  rw [runTestStep]
  dsimp only
  split_ifs <;> rfl

theorem runTest_foldl_Requests (pools : AttackPools) (config : TestConfig)
    (envs : ℕ → RequestEnv) (l : List ℕ) (init : TestResult) :
    (l.foldl (runTestStep pools config envs) init).Requests
      = init.Requests ++ l.map (fun (k : ℕ) => sendRequest pools ((k : ℤ) + 1) config (envs (k + 1))) := by
  induction l generalizing init with
  | nil => simp
  | cons k ks ih =>
      rw [List.foldl_cons, ih, runTestStep_Requests]
      simp

theorem runTestStep_rateLimit_preserved (pools : AttackPools) (config : TestConfig)
    (envs : ℕ → RequestEnv) (init : TestResult) (k : ℕ) (h : init.RateLimitHit = true) :
    (runTestStep pools config envs init k).RateLimitHit = init.RateLimitHit ∧
    (runTestStep pools config envs init k).RateLimitAt = init.RateLimitAt := by
  rw [runTestStep]
  dsimp only
  rw [if_neg]
  · exact ⟨rfl, rfl⟩
  · intro hcon
    rw [h] at hcon
    exact Bool.noConfusion hcon.2

theorem runTestStep_rateLimit_blocked (pools : AttackPools) (config : TestConfig)
    (envs : ℕ → RequestEnv) (init : TestResult) (k : ℕ)
    (h : init.RateLimitHit = false)
    (hb : (sendRequest pools ((k : ℤ) + 1) config (envs (k + 1))).WasBlocked = true) :
    (runTestStep pools config envs init k).RateLimitHit = true ∧
    (runTestStep pools config envs init k).RateLimitAt = (k : ℤ) + 1 := by
  rw [runTestStep]
  dsimp only
  rw [if_pos ⟨hb, h⟩]
  exact ⟨rfl, rfl⟩

theorem runTestStep_rateLimit_not_blocked (pools : AttackPools) (config : TestConfig)
    (envs : ℕ → RequestEnv) (init : TestResult) (k : ℕ)
    (hb : (sendRequest pools ((k : ℤ) + 1) config (envs (k + 1))).WasBlocked = false) :
    (runTestStep pools config envs init k).RateLimitHit = init.RateLimitHit ∧
    (runTestStep pools config envs init k).RateLimitAt = init.RateLimitAt := by
  rw [runTestStep]
  dsimp only
  rw [if_neg]
  · exact ⟨rfl, rfl⟩
  · intro hcon
    rw [hb] at hcon
    exact Bool.noConfusion hcon.1

theorem runTest_foldl_rateLimit_sticky (pools : AttackPools) (config : TestConfig)
    (envs : ℕ → RequestEnv) (l : List ℕ) (init : TestResult) (h : init.RateLimitHit = true) :
    (l.foldl (runTestStep pools config envs) init).RateLimitHit = true ∧
    (l.foldl (runTestStep pools config envs) init).RateLimitAt = init.RateLimitAt := by
  induction l generalizing init with
  | nil => exact ⟨h, rfl⟩
  | cons k ks ih =>
      rw [List.foldl_cons]
      have hp := runTestStep_rateLimit_preserved pools config envs init k h
      have hrec := ih (runTestStep pools config envs init k) (by rw [hp.1, h])
      exact ⟨hrec.1, by rw [hrec.2, hp.2]⟩

theorem runTest_foldl_rateLimit (pools : AttackPools) (config : TestConfig)
    (envs : ℕ → RequestEnv) (l : List ℕ) (init : TestResult) (h : init.RateLimitHit = false) :
    ((l.foldl (runTestStep pools config envs) init).RateLimitHit = true ↔
      ∃ k ∈ l, (sendRequest pools ((k : ℤ) + 1) config (envs (k + 1))).WasBlocked = true) ∧
    (∀ k : ℕ, l.find? (fun (k : ℕ) => (sendRequest pools ((k : ℤ) + 1) config (envs (k + 1))).WasBlocked)
        = some k →
      (l.foldl (runTestStep pools config envs) init).RateLimitAt = (k : ℤ) + 1) := by
  induction l generalizing init with
  | nil =>
      constructor
      · rw [List.foldl_nil, h]
        simp
      · intro k hk
        simp at hk
  | cons k ks ih =>
      rw [List.foldl_cons]
      by_cases hb : (sendRequest pools ((k : ℤ) + 1) config (envs (k + 1))).WasBlocked = true
      · have hstep := runTestStep_rateLimit_blocked pools config envs init k h hb
        have hsticky := runTest_foldl_rateLimit_sticky pools config envs ks
          (runTestStep pools config envs init k) hstep.1
        constructor
        · exact iff_of_true hsticky.1 ⟨k, by simp, hb⟩
        · intro j hj
          rw [List.find?_cons_of_pos ks
            (show (fun (j : ℕ) =>
              (sendRequest pools ((j : ℤ) + 1) config (envs (j + 1))).WasBlocked) k = true
              from hb)] at hj
          injection hj with hj
          subst hj
          rw [hsticky.2, hstep.2]
      · have hbf : (sendRequest pools ((k : ℤ) + 1) config (envs (k + 1))).WasBlocked = false :=
          Bool.not_eq_true _ ▸ Bool.eq_false_iff.mpr hb
        have hstep := runTestStep_rateLimit_not_blocked pools config envs init k hbf
        have hrec := ih (runTestStep pools config envs init k) (by rw [hstep.1, h])
        constructor
        · rw [hrec.1]
          constructor
          · rintro ⟨j, hj, hjb⟩
            exact ⟨j, by simp [hj], hjb⟩
          · rintro ⟨j, hj, hjb⟩
            rcases List.mem_cons.mp hj with hjk | hjk
            · subst hjk
              exact absurd hjb hb
            · exact ⟨j, hjk, hjb⟩
        · intro j hj
          rw [List.find?_cons_of_neg ks
            (show ¬ (fun (j : ℕ) =>
              (sendRequest pools ((j : ℤ) + 1) config (envs (j + 1))).WasBlocked) k = true
              from fun hcon => hb hcon)] at hj
          exact hrec.2 j hj

theorem calculateStatistics_preserves (r : TestResult) :
    (calculateStatistics r).Requests = r.Requests ∧
    (calculateStatistics r).TotalRequests = r.TotalRequests ∧
    (calculateStatistics r).RateLimitHit = r.RateLimitHit ∧
    (calculateStatistics r).RateLimitAt = r.RateLimitAt := by
  rw [calculateStatistics]
  dsimp only
  split_ifs <;> exact ⟨rfl, rfl, rfl, rfl⟩

/-- C1: for every configuration with N ≥ 1, a full run produces a
    result whose TotalRequests is N and whose outcome list has exactly N
    entries carrying IDs 1..N in order, both in the synchronous RunTest
    path and through buildFinalResult over the ordered outcomes a
    completed streaming run collects. -/
theorem completed_run_counts (pools : AttackPools) (config : TestConfig)
    (envs : ℕ → RequestEnv) (testID : String) (st et : ℤ)
    (hN : 1 ≤ config.TotalRequests) :
    ((RunTest pools config envs testID st et).TotalRequests = config.TotalRequests ∧
     ((RunTest pools config envs testID st et).Requests.length : ℤ) = config.TotalRequests ∧
     ∀ k (hk : k < (RunTest pools config envs testID st et).Requests.length),
       ((RunTest pools config envs testID st et).Requests.get ⟨k, hk⟩).ID = (k : ℤ) + 1) ∧
    ((buildFinalResult testID (sentResults pools config envs) st et).TotalRequests
        = config.TotalRequests ∧
     ((buildFinalResult testID (sentResults pools config envs) st et).Requests.length : ℤ)
        = config.TotalRequests ∧
     ∀ k (hk : k < (buildFinalResult testID (sentResults pools config envs) st et).Requests.length),
       ((buildFinalResult testID (sentResults pools config envs) st et).Requests.get ⟨k, hk⟩).ID
          = (k : ℤ) + 1) := by
  have hsentlen : (sentResults pools config envs).length = config.TotalRequests.toNat := by
    rw [sentResults, List.length_map, List.length_range]
  have hsent : ∀ k (hk : k < (sentResults pools config envs).length),
      ((sentResults pools config envs).get ⟨k, hk⟩).ID = (k : ℤ) + 1 := by
    intro k hk
    simp only [sentResults, List.get_eq_getElem, List.getElem_map, List.getElem_range,
      sendRequest_ID]
  have hrun : (RunTest pools config envs testID st et).Requests = sentResults pools config envs := by
    rw [RunTest]
    rw [(calculateStatistics_preserves _).1]
    rw [runTest_foldl_Requests]
    rw [sentResults]
    simp
  have hruntot : (RunTest pools config envs testID st et).TotalRequests
      = ((RunTest pools config envs testID st et).Requests.length : ℤ) := by
    conv_rhs => rw [hrun]
    rw [RunTest]
    rw [(calculateStatistics_preserves _).2.1]
    rw [runTest_foldl_Requests]
    rw [sentResults]
    simp
  have hbuild : (buildFinalResult testID (sentResults pools config envs) st et).Requests
      = sentResults pools config envs := by
    rw [buildFinalResult]
    dsimp only
    rw [(calculateStatistics_preserves _).1]
  have hbuildtot : (buildFinalResult testID (sentResults pools config envs) st et).TotalRequests
      = ((sentResults pools config envs).length : ℤ) := by
    rw [buildFinalResult]
    dsimp only
    rw [(calculateStatistics_preserves _).2.1]
  have hcast : ((config.TotalRequests.toNat : ℤ)) = config.TotalRequests := by omega
  constructor
  · refine ⟨?_, ?_, ?_⟩
    · rw [hruntot, hrun, hsentlen, hcast]
    · rw [hrun, hsentlen, hcast]
    · intro k hk
      have hk2 : k < (sentResults pools config envs).length := by
        rw [← hrun]; exact hk
      have := hsent k hk2
      rw [← this]
      congr 1
      simp [hrun]
  · refine ⟨?_, ?_, ?_⟩
    · rw [hbuildtot, hsentlen, hcast]
    · rw [hbuild, hsentlen, hcast]
    · intro k hk
      have hk2 : k < (sentResults pools config envs).length := by
        rw [← hbuild]; exact hk
      have := hsent k hk2
      rw [← this]
      congr 1
      simp [hbuild]

theorem runTest_Requests_eq (pools : AttackPools) (config : TestConfig)
    (envs : ℕ → RequestEnv) (testID : String) (st et : ℤ) :
    (RunTest pools config envs testID st et).Requests = sentResults pools config envs := by
  rw [RunTest]
  rw [(calculateStatistics_preserves _).1]
  rw [runTest_foldl_Requests]
  rw [sentResults]
  simp

theorem runTest_RateLimitHit_eq (pools : AttackPools) (config : TestConfig)
    (envs : ℕ → RequestEnv) (testID : String) (st et : ℤ) :
    (RunTest pools config envs testID st et).RateLimitHit
      = ((List.range config.TotalRequests.toNat).foldl (runTestStep pools config envs)
          { TestID := testID, StartTime := st, Requests := [] }).RateLimitHit := by
  rw [RunTest]
  rw [(calculateStatistics_preserves _).2.2.1]

theorem runTest_RateLimitAt_eq (pools : AttackPools) (config : TestConfig)
    (envs : ℕ → RequestEnv) (testID : String) (st et : ℤ) :
    (RunTest pools config envs testID st et).RateLimitAt
      = ((List.range config.TotalRequests.toNat).foldl (runTestStep pools config envs)
          { TestID := testID, StartTime := st, Requests := [] }).RateLimitAt := by
  rw [RunTest]
  rw [(calculateStatistics_preserves _).2.2.2]

/-- C3: an outcome is flagged blocked exactly when its status code is
    403, 406 or 429 (a transport failure records status 0 and is never
    blocked), and in RunTest the first blocked outcome latches
    RateLimitHit and RateLimitAt to its sequence number, which later
    blocked outcomes never change. -/
theorem blocked_iff_and_first_blocked_latches (pools : AttackPools) (config : TestConfig)
    (envs : ℕ → RequestEnv) (testID : String) (st et : ℤ) :
    (∀ (id : ℤ) (env : RequestEnv),
      (sendRequest pools id config env).WasBlocked = true ↔
        ((sendRequest pools id config env).Status = 403 ∨
         (sendRequest pools id config env).Status = 406 ∨
         (sendRequest pools id config env).Status = 429)) ∧
    ((RunTest pools config envs testID st et).RateLimitHit = true ↔
      ∃ req ∈ (RunTest pools config envs testID st et).Requests, req.WasBlocked = true) ∧
    (∀ req, (RunTest pools config envs testID st et).Requests.find? (fun q => q.WasBlocked)
        = some req →
      (RunTest pools config envs testID st et).RateLimitHit = true ∧
      (RunTest pools config envs testID st et).RateLimitAt = req.ID) := by
  have hinit : ({ TestID := testID, StartTime := st, Requests := [] } : TestResult).RateLimitHit
      = false := rfl
  have hfold := runTest_foldl_rateLimit pools config envs
    (List.range config.TotalRequests.toNat) _ hinit
  refine ⟨fun id env => sendRequest_blocked_iff pools id config env, ?_, ?_⟩
  · rw [runTest_RateLimitHit_eq, runTest_Requests_eq, sentResults, hfold.1]
    constructor
    · rintro ⟨k, hk, hb⟩
      exact ⟨sendRequest pools ((k : ℤ) + 1) config (envs (k + 1)), List.mem_map_of_mem _ hk, hb⟩
    · rintro ⟨req, hreq, hb⟩
      obtain ⟨k, hk, rfl⟩ := List.mem_map.mp hreq
      exact ⟨k, hk, hb⟩
  · intro req hreq
    rw [runTest_Requests_eq, sentResults, List.find?_map] at hreq
    obtain ⟨k, hkfind, hkreq⟩ := Option.map_eq_some'.mp hreq
    have hb0 := List.find?_some hkfind
    have hb : (sendRequest pools ((k : ℤ) + 1) config (envs (k + 1))).WasBlocked = true := hb0
    have hmem : k ∈ List.range config.TotalRequests.toNat :=
      List.mem_of_find?_eq_some hkfind
    constructor
    · rw [runTest_RateLimitHit_eq, hfold.1]
      exact ⟨k, hmem, hb⟩
    · rw [runTest_RateLimitAt_eq, hfold.2 k hkfind, ← hkreq, sendRequest_ID]

/-! ## Concrete fixtures for the claim witnesses -/

/-- Two requests: the first answered 200, the second answered 429. -/
def envs429 : ℕ → RequestEnv := fun n =>
  if n = 2 then { transport := .response 429 [] "" none 5 }
  else { transport := .response 200 [] "" none 3 }

/-- A small accepted configuration with two requests. -/
def config2 : TestConfig := { TargetURL := "http://x", TotalRequests := 2, Duration := 1 }

theorem completed_run_counts_witness :
    (RunTest {} config2 envs429 "t" 0 0).TotalRequests = 2 ∧
    ((RunTest {} config2 envs429 "t" 0 0).Requests.length : ℤ) = 2 ∧
    (buildFinalResult "t" (sentResults {} config2 envs429) 0 0).TotalRequests = 2 :=
  let h := completed_run_counts {} config2 envs429 "t" 0 0 (by decide)
  ⟨h.1.1, h.1.2.1, h.2.1⟩

theorem blocked_iff_and_first_blocked_latches_witness :
    (RunTest {} config2 envs429 "t" 0 0).RateLimitHit = true ∧
    (RunTest {} config2 envs429 "t" 0 0).RateLimitAt = 2 := by
  have h := blocked_iff_and_first_blocked_latches {} config2 envs429 "t" 0 0
  have h3 := h.2.2 (sendRequest {} 2 config2 (envs429 2)) (by decide)
  refine ⟨h3.1, ?_⟩
  rw [h3.2]
  decide

/-! ## Statistics fold characterizations (for the min / max / average) -/

theorem statsStep_totalResponseTime (acc : StatsAcc) (req : RequestResult) :
    (statsStep acc req).totalResponseTime = acc.totalResponseTime + req.ResponseTime := by
  obtain ⟨s, e, b, t, mn, mx, rts⟩ := acc
  simp only [statsStep]
  split_ifs <;> rfl

theorem statsStep_minResponse (acc : StatsAcc) (req : RequestResult) :
    (statsStep acc req).minResponse =
      if 0 < req.ResponseTime then min acc.minResponse req.ResponseTime else acc.minResponse := by
  obtain ⟨s, e, b, t, mn, mx, rts⟩ := acc
  simp only [statsStep]
  split_ifs <;> (try dsimp only at *) <;> omega

theorem statsStep_maxResponse (acc : StatsAcc) (req : RequestResult) :
    (statsStep acc req).maxResponse = max acc.maxResponse req.ResponseTime := by
  obtain ⟨s, e, b, t, mn, mx, rts⟩ := acc
  simp only [statsStep]
  split_ifs <;> (try dsimp only at *) <;> omega

theorem statsFold_totalResponseTime (l : List RequestResult) (acc : StatsAcc) :
    (l.foldl statsStep acc).totalResponseTime
      = acc.totalResponseTime + (l.map (fun q => q.ResponseTime)).sum := by
  induction l generalizing acc with
  | nil => simp
  | cons r rs ih =>
      rw [List.foldl_cons, ih, statsStep_totalResponseTime]
      simp
      ring

theorem statsFold_minResponse (l : List RequestResult) (acc : StatsAcc) :
    (l.foldl statsStep acc).minResponse
      = ((l.map (fun q => q.ResponseTime)).filter (fun t => decide (0 < t))).foldl
          min acc.minResponse := by
  induction l generalizing acc with
  | nil => simp
  | cons r rs ih =>
      rw [List.foldl_cons, ih, statsStep_minResponse]
      by_cases h : 0 < r.ResponseTime
      · rw [if_pos h]
        simp [h]
      · rw [if_neg h]
        simp [h]

theorem statsFold_maxResponse (l : List RequestResult) (acc : StatsAcc) :
    (l.foldl statsStep acc).maxResponse
      = (l.map (fun q => q.ResponseTime)).foldl max acc.maxResponse := by
  induction l generalizing acc with
  | nil => simp
  | cons r rs ih =>
      rw [List.foldl_cons, ih, statsStep_maxResponse]
      simp

theorem foldl_min_le (l : List ℤ) (a : ℤ) :
    l.foldl min a ≤ a ∧ ∀ x ∈ l, l.foldl min a ≤ x := by
  induction l generalizing a with
  | nil => simp
  | cons y ys ih =>
      rw [List.foldl_cons]
      have h := ih (min a y)
      refine ⟨le_trans h.1 (min_le_left a y), ?_⟩
      intro x hx
      rcases List.mem_cons.mp hx with hxy | hxy
      · subst hxy
        exact le_trans h.1 (min_le_right a x)
      · exact h.2 x hxy

theorem foldl_min_mem_or (l : List ℤ) (a : ℤ) :
    l.foldl min a = a ∨ l.foldl min a ∈ l := by
  induction l generalizing a with
  | nil => simp
  | cons y ys ih =>
      rw [List.foldl_cons]
      rcases ih (min a y) with h | h
      · rcases le_total a y with hay | hay
        · left
          rw [h, min_eq_left hay]
        · right
          rw [h, min_eq_right hay]
          exact List.mem_cons_self y ys
      · right
        exact List.mem_cons_of_mem y h

theorem foldl_min_eq_of_forall_le (l : List ℤ) (a : ℤ) (h : ∀ x ∈ l, a ≤ x) :
    l.foldl min a = a := by
  induction l generalizing a with
  | nil => rfl
  | cons y ys ih =>
      rw [List.foldl_cons, min_eq_left (h y (List.mem_cons_self y ys))]
      exact ih a (fun x hx => h x (List.mem_cons_of_mem y hx))

theorem foldl_max_ge (l : List ℤ) (a : ℤ) :
    a ≤ l.foldl max a ∧ ∀ x ∈ l, x ≤ l.foldl max a := by
  induction l generalizing a with
  | nil => simp
  | cons y ys ih =>
      rw [List.foldl_cons]
      have h := ih (max a y)
      refine ⟨le_trans (le_max_left a y) h.1, ?_⟩
      intro x hx
      rcases List.mem_cons.mp hx with hxy | hxy
      · subst hxy
        exact le_trans (le_max_right a x) h.1
      · exact h.2 x hxy

theorem foldl_max_mem_or (l : List ℤ) (a : ℤ) :
    l.foldl max a = a ∨ l.foldl max a ∈ l := by
  induction l generalizing a with
  | nil => simp
  | cons y ys ih =>
      rw [List.foldl_cons]
      rcases ih (max a y) with h | h
      · rcases le_total a y with hay | hay
        · right
          rw [h, max_eq_right hay]
          exact List.mem_cons_self y ys
        · left
          rw [h, max_eq_left hay]
      · right
        exact List.mem_cons_of_mem y h

theorem calculateStatistics_MinResponse (r : TestResult) :
    (calculateStatistics r).MinResponse =
      (if (r.Requests.foldl statsStep {}).minResponse = 999999 then 0
       else (r.Requests.foldl statsStep {}).minResponse) := by
  rw [calculateStatistics]

theorem calculateStatistics_MaxResponse (r : TestResult) :
    (calculateStatistics r).MaxResponse = (r.Requests.foldl statsStep {}).maxResponse := by
  rw [calculateStatistics]

theorem calculateStatistics_AvgResponse (r : TestResult) (h : 0 < r.TotalRequests) :
    (calculateStatistics r).AvgResponse
      = ((r.Requests.foldl statsStep {}).totalResponseTime).tdiv r.TotalRequests := by
  rw [calculateStatistics]
  dsimp only
  rw [if_pos h]

/-- C6 amended: over a non-empty outcome list, buildFinalResult computes
    AvgResponse as the integer quotient of the latency sum by the count;
    MinResponse as the least ResponseTime strictly between 0 and the
    sentinel 999999 (0 when no entry lies in that range, so latencies of
    999999 ms or more are invisible to the minimum); and MaxResponse as
    the maximum of 0 and every ResponseTime. -/
theorem final_stats_avg_min_max (testID : String) (requests : List RequestResult) (st et : ℤ)
    (hne : requests ≠ []) :
    (buildFinalResult testID requests st et).AvgResponse
        = ((requests.map (fun (q : RequestResult) => q.ResponseTime)).sum).tdiv (requests.length : ℤ) ∧
    (((requests.map (fun (q : RequestResult) => q.ResponseTime)).filter
          (fun t => decide (0 < t) && decide (t < 999999)) = [] →
        (buildFinalResult testID requests st et).MinResponse = 0) ∧
      ((requests.map (fun (q : RequestResult) => q.ResponseTime)).filter
          (fun t => decide (0 < t) && decide (t < 999999)) ≠ [] →
        (buildFinalResult testID requests st et).MinResponse ∈
          (requests.map (fun (q : RequestResult) => q.ResponseTime)).filter
            (fun t => decide (0 < t) && decide (t < 999999)) ∧
        ∀ x ∈ (requests.map (fun (q : RequestResult) => q.ResponseTime)).filter
            (fun t => decide (0 < t) && decide (t < 999999)),
          (buildFinalResult testID requests st et).MinResponse ≤ x)) ∧
    ((∀ x ∈ requests.map (fun (q : RequestResult) => q.ResponseTime),
        x ≤ (buildFinalResult testID requests st et).MaxResponse) ∧
      ((buildFinalResult testID requests st et).MaxResponse = 0 ∨
        (buildFinalResult testID requests st et).MaxResponse ∈
          requests.map (fun (q : RequestResult) => q.ResponseTime))) := by
  have hlen : 0 < requests.length := List.length_pos.mpr hne
  have hr1 : (({ TestID := testID,
                 StartTime := st,
                 EndTime := et,
                 Requests := requests,
                 TotalRequests := (requests.length : ℤ) } : TestResult)).Requests
      = requests := rfl
  have hbuild : buildFinalResult testID requests st et
      = calculateStatistics
          { TestID := testID,
            StartTime := st,
            EndTime := et,
            Requests := requests,
            TotalRequests := (requests.length : ℤ) } := by
    rw [buildFinalResult]
  set times := requests.map (fun (q : RequestResult) => q.ResponseTime) with htimes
  set p1 := times.filter (fun t => decide (0 < t)) with hp1
  set pos := times.filter (fun t => decide (0 < t) && decide (t < 999999)) with hpos
  have hmin_base : (requests.foldl statsStep {}).minResponse = p1.foldl min 999999 := by
    rw [statsFold_minResponse]
  have hmax_base : (requests.foldl statsStep {}).maxResponse = times.foldl max 0 := by
    rw [statsFold_maxResponse]
  have htot_base : (requests.foldl statsStep {}).totalResponseTime = times.sum := by
    rw [statsFold_totalResponseTime]
    simp
  have hp1mem : ∀ x, x ∈ p1 ↔ x ∈ times ∧ 0 < x := by
    intro x
    rw [hp1, List.mem_filter]
    simp
  have hposmem : ∀ x, x ∈ pos ↔ x ∈ times ∧ 0 < x ∧ x < 999999 := by
    intro x
    rw [hpos, List.mem_filter]
    simp [and_assoc]
  have hTR : (0 : ℤ) < (({ TestID := testID,
                           StartTime := st,
                           EndTime := et,
                           Requests := requests,
                           TotalRequests := (requests.length : ℤ) } : TestResult)).TotalRequests := by
    show (0 : ℤ) < (requests.length : ℤ)
    exact_mod_cast hlen
  refine ⟨?_, ⟨?_, ?_⟩, ?_, ?_⟩
  · rw [hbuild, calculateStatistics_AvgResponse _ hTR, hr1, htot_base]
  · intro hempty
    rw [hbuild, calculateStatistics_MinResponse, hr1, hmin_base]
    have hall : ∀ x ∈ p1, (999999 : ℤ) ≤ x := by
      intro x hx
      have hx2 := (hp1mem x).mp hx
      by_contra hlt
      have : x ∈ pos := (hposmem x).mpr ⟨hx2.1, hx2.2, by omega⟩
      rw [hempty] at this
      exact List.not_mem_nil x this
    rw [foldl_min_eq_of_forall_le p1 999999 hall, if_pos rfl]
  · intro hnonempty
    rw [hbuild, calculateStatistics_MinResponse, hr1, hmin_base]
    obtain ⟨y, hy⟩ := List.exists_mem_of_ne_nil pos hnonempty
    have hy2 := (hposmem y).mp hy
    have hyp1 : y ∈ p1 := (hp1mem y).mpr ⟨hy2.1, hy2.2.1⟩
    have hle := foldl_min_le p1 999999
    have hlt : p1.foldl min 999999 < 999999 := lt_of_le_of_lt (hle.2 y hyp1) hy2.2.2
    rw [if_neg (by omega)]
    have hmem : p1.foldl min 999999 ∈ p1 := by
      rcases foldl_min_mem_or p1 999999 with h | h
      · omega
      · exact h
    have hmem2 := (hp1mem _).mp hmem
    constructor
    · exact (hposmem _).mpr ⟨hmem2.1, hmem2.2, hlt⟩
    · intro x hx
      exact hle.2 x ((hp1mem x).mpr ⟨((hposmem x).mp hx).1, ((hposmem x).mp hx).2.1⟩)
  · intro x hx
    rw [hbuild, calculateStatistics_MaxResponse, hr1, hmax_base]
    exact (foldl_max_ge times 0).2 x hx
  · rw [hbuild, calculateStatistics_MaxResponse, hr1, hmax_base]
    exact foldl_max_mem_or times 0

theorem final_stats_avg_min_max_witness :
    (buildFinalResult "t" [{ ID := 1, Status := 200, ResponseTime := 7 }] 0 0).AvgResponse
      = ((([{ ID := 1, Status := 200, ResponseTime := 7 }] : List RequestResult).map
          (fun (q : RequestResult) => q.ResponseTime)).sum).tdiv
          (([{ ID := 1, Status := 200, ResponseTime := 7 }] : List RequestResult).length : ℤ) :=
  (final_stats_avg_min_max "t" [{ ID := 1, Status := 200, ResponseTime := 7 }] 0 0
    (by decide)).1

/-- The claim that MinResponse is the minimum of all strictly positive
    response times fails at a single request whose latency equals the Go
    sentinel 999999: the positive latencies are exactly [999999], yet
    the computed MinResponse is 0, not 999999. -/
theorem final_stats_min_sentinel_counterexample :
    (buildFinalResult "t" [{ ID := 1, Status := 200, ResponseTime := 999999 }] 0 0).MinResponse
        = 0 ∧
    ((([{ ID := 1, Status := 200, ResponseTime := 999999 }] : List RequestResult).map
        (fun (q : RequestResult) => q.ResponseTime)).filter (fun t => decide (0 < t))) = [999999] ∧
    (999999 : ℤ) ≠ 0 := by
  refine ⟨by decide, by decide, by decide⟩

/-! # Streaming session coordinator (RunTestStreaming in models.go)

The collector goroutine of RunTestStreaming is modelled as a function of
an explicit interleaving schedule:

* delivered — how many outcomes the sender goroutine
  (sendRequestsConcurrently) handed to the results channel before
  stopping.  The sender delivers the outcomes in order and stops early
  only when the cancellation signal fires at one of its own check
  points, so delivered < totalRequests encodes a cancellation that
  fired mid-run.
* cancelObs k — whether the collector's non-blocking ctx.Done check,
  run right after it processes the k-th outcome, observed the
  cancellation.  A schedule with delivered < N and cancelObs
  identically false is realizable: cancellation fires while the sender
  sits in its inter-request wait, after the collector has already run
  the check for the last delivered outcome; the sender then closes the
  channel and the collector never checks again.
* batchDue k — whether at least one second has elapsed since the last
  emission when outcome k is processed (the time-window half of the
  batching policy). -/

inductive StreamEvent where
  | progressEvent (completed : ℕ) (total : ℤ) (percentage : ℤ) (newCount : ℕ)
  | cancelledEvent (completed : ℕ) (total : ℤ)
  | completeEvent (completed : ℤ) (total : ℤ) (finalResult : TestResult)

def StreamEvent.isCancelled : StreamEvent → Bool
  | .cancelledEvent _ _ => true
  | _ => false

def StreamEvent.isComplete : StreamEvent → Bool
  | .completeEvent _ _ _ => true
  | _ => false

def StreamEvent.finalTotalRequests : StreamEvent → Option ℤ
  | .completeEvent _ _ r => some r.TotalRequests
  | _ => none

def StreamEvent.completedField : StreamEvent → Option ℤ
  | .completeEvent c _ _ => some c
  | _ => none

/-- The body of the collector loop: processes the delivered outcomes in
    order, returning the emitted events and, when the loop fell through
    to the completion path (final-batch break or channel close), the
    accumulated outcome list; none means the cancelled event was emitted
    and the goroutine returned. -/
def streamLoop (total : ℤ) (results : List RequestResult) (cancelObs batchDue : ℕ → Bool)
    (completedCount : ℕ) (allRequests batchRequests : List RequestResult) :
    List StreamEvent × Option (List RequestResult) :=
  match results with
  | [] => ([], some allRequests)
  | r :: rest =>
    let completedCount := completedCount + 1
    let allRequests := allRequests ++ [r]
    let batchRequests := batchRequests ++ [r]
    if cancelObs completedCount then
      ([StreamEvent.cancelledEvent completedCount total], none)
    else
      let isComplete : Bool := decide (total ≤ (completedCount : ℤ))
      let doBatch : Bool := batchDue completedCount || isComplete
      let events : List StreamEvent :=
        if doBatch then
          [StreamEvent.progressEvent completedCount total
            (((completedCount : ℤ) * 100).tdiv total) batchRequests.length]
        else []
      let batchRequests := if doBatch then [] else batchRequests
      if isComplete then (events, some allRequests)
      else
        let next := streamLoop total rest cancelObs batchDue completedCount allRequests batchRequests
        (events ++ next.1, next.2)

/-- The full event stream of one RunTestStreaming session under a given
    schedule: the initial zero-progress event, the collector loop over
    the delivered prefix of the sender outcomes, and — whenever the
    loop was not exited by the cancellation branch — a terminal
    complete event whose Completed field is hard-coded to
    config.TotalRequests and whose FinalResult is built from the
    outcomes actually collected. -/
def RunTestStreamingEvents (pools : AttackPools) (config : TestConfig)
    (envs : ℕ → RequestEnv) (delivered : ℕ) (cancelObs batchDue : ℕ → Bool)
    (testID : String) (startTime endTime : ℤ) : List StreamEvent :=
  let initial := StreamEvent.progressEvent 0 config.TotalRequests 0 0
  let out := streamLoop config.TotalRequests ((sentResults pools config envs).take delivered)
    cancelObs batchDue 0 [] []
  match out.2 with
  | none => initial :: out.1
  | some allRequests =>
      initial :: (out.1 ++ [StreamEvent.completeEvent config.TotalRequests config.TotalRequests
        (buildFinalResult testID allRequests startTime endTime)])

/-- C4 (code bug): with 2 configured requests, when cancellation stops
    the sender after it has delivered exactly one outcome and the
    collector never observes the cancellation at its per-outcome check
    (a realizable interleaving: cancel fires during the inter-request
    wait), the event stream contains no cancelled event at all and ends
    with a complete event whose FinalResult covers only 1 of the 2
    requests and whose Completed field falsely claims 2. -/
theorem streaming_cancel_emits_complete_bug :
    ((RunTestStreamingEvents {} config2 envs429 1 (fun _ => false) (fun _ => false)
        "t" 0 0).map StreamEvent.isCancelled) = [false, false] ∧
    ((RunTestStreamingEvents {} config2 envs429 1 (fun _ => false) (fun _ => false)
        "t" 0 0).getLast?.map StreamEvent.isComplete) = some true ∧
    ((RunTestStreamingEvents {} config2 envs429 1 (fun _ => false) (fun _ => false)
        "t" 0 0).getLast?.bind StreamEvent.finalTotalRequests) = some 1 ∧
    ((RunTestStreamingEvents {} config2 envs429 1 (fun _ => false) (fun _ => false)
        "t" 0 0).getLast?.bind StreamEvent.completedField) = some 2 ∧
    (1 : ℤ) < config2.TotalRequests := by
  refine ⟨by decide, by decide, by decide, by decide, by decide⟩

theorem streamLoop_no_cancel (total : ℤ) (results : List RequestResult) (batchDue : ℕ → Bool)
    (c : ℕ) (acc batch : List RequestResult)
    (hcount : (c : ℤ) + results.length = total) :
    (streamLoop total results (fun _ => false) batchDue c acc batch).2
      = some (acc ++ results) := by
  induction results generalizing c acc batch with
  | nil => simp [streamLoop]
  | cons r rest ih =>
      rw [streamLoop]
      dsimp only
      rw [if_neg (by simp)]
      simp only [List.length_cons] at hcount
      by_cases hrest : rest = []
      · subst hrest
        have hiscomp : decide (total ≤ ((c + 1 : ℕ) : ℤ)) = true := by
          simp only [List.length_nil] at hcount
          simp
          omega
        rw [hiscomp]
        simp
      · have hlen : 1 ≤ (rest.length : ℤ) := by
          have := List.length_pos.mpr hrest
          omega
        have hiscomp : decide (total ≤ ((c + 1 : ℕ) : ℤ)) = false := by
          simp
          push_cast at hcount ⊢
          omega
        rw [hiscomp]
        simp only [Bool.false_eq_true, if_false]
        rw [ih (c + 1) (acc ++ [r]) _ (by push_cast at hcount ⊢; omega)]
        simp

theorem runTestStreamingEvents_completed (pools : AttackPools) (config : TestConfig)
    (envs : ℕ → RequestEnv) (batchDue : ℕ → Bool) (testID : String) (st et : ℤ)
    (hN : 1 ≤ config.TotalRequests) :
    (RunTestStreamingEvents pools config envs config.TotalRequests.toNat
        (fun _ => false) batchDue testID st et).getLast?
      = some (StreamEvent.completeEvent config.TotalRequests config.TotalRequests
          (buildFinalResult testID (sentResults pools config envs) st et)) := by
  rw [RunTestStreamingEvents]
  have htake : (sentResults pools config envs).take config.TotalRequests.toNat
      = sentResults pools config envs := by
    apply List.take_of_length_le
    rw [sentResults, List.length_map, List.length_range]
  rw [htake]
  have hloop := streamLoop_no_cancel config.TotalRequests (sentResults pools config envs)
    batchDue 0 [] [] (by rw [sentResults, List.length_map, List.length_range]; omega)
  rw [hloop]
  dsimp only
  rw [List.nil_append]
  rw [← List.cons_append, List.getLast?_concat]
